import Mathlib

/-!
Verification development for the Telegram callback-data protocol of the
lastfmbucket bot.  The Python modules `callbacks.py`, `commands.py`,
`services.py` and `db.py` are shallowly embedded below: strings are lists of
characters, Python `Optional` values are `Option`, exceptions that a function
catches (or raises) are collapsed into `Option` results, and the SQLite user
table is a function from telegram ids to optional records.
-/

/-! ## Character-level helpers (Python `str`/`int` behaviour on ASCII data) -/

/-- ASCII decimal digit test (codepoints 48..57). -/
def charIsDigit (c : Char) : Bool := decide (48 ≤ c.toNat ∧ c.toNat ≤ 57)

/-- The whitespace characters stripped by Python `int()` on ASCII input. -/
def pyIsSpace (c : Char) : Bool :=
  decide (c = ' ' ∨ c = '\t' ∨ c = '\n' ∨ c = '\r' ∨ c = '\x0b' ∨ c = '\x0c')

/-- Number of bytes the character occupies in UTF-8 (Python `len(s.encode("utf-8"))`
counts these per character). -/
def charUtf8Size (c : Char) : Nat :=
  if c.toNat ≤ 0x7F then 1
  else if c.toNat ≤ 0x7FF then 2
  else if c.toNat ≤ 0xFFFF then 3
  else 4

/-- UTF-8 byte length of a string (as a list of characters). -/
def utf8Len (l : List Char) : Nat := (l.map charUtf8Size).sum

/-- The ASCII character for a decimal digit value (values ≥ 9 give '9';
only used with arguments below 10). -/
def digitChar (n : Nat) : Char :=
  if n = 0 then '0' else if n = 1 then '1' else if n = 2 then '2'
  else if n = 3 then '3' else if n = 4 then '4' else if n = 5 then '5'
  else if n = 6 then '6' else if n = 7 then '7' else if n = 8 then '8' else '9'

/-- Least-significant-digit-first decimal digits of `n`, with explicit fuel
(structural recursion so that the kernel can evaluate it). -/
def toDecAux : Nat → Nat → List Char
  | 0, _ => []
  | fuel + 1, n =>
    if n < 10 then [digitChar n] else digitChar (n % 10) :: toDecAux fuel (n / 10)

/-- Decimal representation of a natural number, as Python `str` produces it. -/
def toDec (n : Nat) : List Char := (toDecAux (n + 1) n).reverse

/-- Python `str` on an `int`: decimal digits, '-' sign for negative values. -/
def intStr (n : Int) : List Char :=
  if n < 0 then '-' :: toDec n.natAbs else toDec n.toNat

/-- Numeric value of a most-significant-digit-first digit string. -/
def digitsVal (l : List Char) : Nat :=
  l.foldl (fun a c => 10 * a + (c.toNat - 48)) 0

/-- After the leading digit: Python `int()` allows single underscores, each
followed by a digit, between digits. -/
def digitsTail : List Char → Bool
  | [] => true
  | c :: rest =>
    if c = '_' then
      match rest with
      | [] => false
      | d :: rest2 => charIsDigit d && digitsTail rest2
    else charIsDigit c && digitsTail rest

/-- Shape of the digit part accepted by Python `int()`:
`digit+ ('_' digit+)*`. -/
def pyDigitsOk : List Char → Bool
  | [] => false
  | c :: rest => charIsDigit c && digitsTail rest

/-- Parse the unsigned digit part of a Python integer literal. -/
def pyParseDigits (l : List Char) : Option Nat :=
  if pyDigitsOk l then some (digitsVal (l.filter charIsDigit)) else none

/-- Strip leading and trailing whitespace, as Python `int()` does. -/
def stripSpaces (l : List Char) : List Char :=
  ((l.dropWhile pyIsSpace).reverse.dropWhile pyIsSpace).reverse

/-- Sign handling of Python `int()` after whitespace stripping. -/
def pyParseSigned : List Char → Option Int
  | [] => none
  | c :: rest =>
    if c = '+' then (pyParseDigits rest).map (fun m : Nat => (m : Int))
    else if c = '-' then (pyParseDigits rest).map (fun m : Nat => -(m : Int))
    else (pyParseDigits (c :: rest)).map (fun m : Nat => (m : Int))

/-- Python `int(s)` on an ASCII string: `some n` on success, `none` when a
`ValueError` would be raised. -/
def pyParseInt (s : List Char) : Option Int := pyParseSigned (stripSpaces s)

/-! ## The separator protocol: `data.split("|")` and `"|".join(parts)` -/

/-- `data.split("|")` with Python semantics: empty segments are kept and the
empty string splits to one empty segment. -/
def splitSep : List Char → List (List Char)
  | [] => [[]]
  | c :: rest =>
    if c = '|' then [] :: splitSep rest
    else List.modifyHead (fun p => c :: p) (splitSep rest)

/-- `"|".join(parts)` for a non-empty list of parts. -/
def joinSep : List (List Char) → List Char
  | [] => []
  | [p] => p
  | p :: ps => p ++ '|' :: joinSep ps

/-! ## The provider-side enumerations (`lastfm.py`) -/

namespace Lastfm

/-- `lastfm.Period(StrEnum)` (the pylast period constants). -/
inductive Period where
  | OVERALL
  | WEEK
  | ONE_MONTH
  | THREE_MONTHS
  | SIX_MONTHS
  | YEAR
deriving DecidableEq, Fintype

/-- `lastfm.EntityType(StrEnum)`. -/
inductive EntityType where
  | ARTIST
  | ALBUM
  | TRACK
deriving DecidableEq, Fintype

end Lastfm

/-! ## The callback vocabulary (`callbacks.py`; the module is embedded inside
the namespace `Callbacks` because Mathlib already owns the root name
`Action`) -/

namespace Callbacks

/-- `VERSION = "1"`. -/
def VERSION : List Char := ['1']

/-- `class Action(StrEnum)`: short codes for callback actions. -/
inductive Action where
  | NP_LESS
  | NP_LESS_COVER
  | NP_MORE
  | PREF_UNLINK
  | TOPS
deriving DecidableEq, Fintype

/-- Wire value of an `Action` member. -/
def Action.code : Action → List Char
  | .NP_LESS => ['n', 'l']
  | .NP_LESS_COVER => ['n', 'c']
  | .NP_MORE => ['n', 'm']
  | .PREF_UNLINK => ['p', 'u']
  | .TOPS => ['t']

/-- `Action(s)`: value lookup of the `StrEnum`; `none` models the
`ValueError` raised on an unknown code. -/
def Action.ofCode (s : List Char) : Option Action :=
  if s = ['n', 'l'] then some .NP_LESS
  else if s = ['n', 'c'] then some .NP_LESS_COVER
  else if s = ['n', 'm'] then some .NP_MORE
  else if s = ['p', 'u'] then some .PREF_UNLINK
  else if s = ['t'] then some .TOPS
  else none

/-- `class Entity(StrEnum)`: short codes for top entity types. -/
inductive Entity where
  | ARTIST
  | ALBUM
  | TRACK
deriving DecidableEq, Fintype

/-- Wire value of an `Entity` member. -/
def Entity.code : Entity → List Char
  | .ARTIST => ['a']
  | .ALBUM => ['b']
  | .TRACK => ['t']

/-- `Entity(s)`: value lookup; `none` models the `ValueError` on an unknown
code. -/
def Entity.ofCode (s : List Char) : Option Entity :=
  if s = ['a'] then some .ARTIST
  else if s = ['b'] then some .ALBUM
  else if s = ['t'] then some .TRACK
  else none

/-- `class Period(StrEnum)`: short codes for time periods. -/
inductive Period where
  | WEEK
  | MONTH_1
  | MONTH_3
  | MONTH_6
  | YEAR
  | OVERALL
deriving DecidableEq, Fintype

/-- Wire value of a `Period` member. -/
def Period.code : Period → List Char
  | .WEEK => ['w']
  | .MONTH_1 => ['1']
  | .MONTH_3 => ['3']
  | .MONTH_6 => ['6']
  | .YEAR => ['y']
  | .OVERALL => ['o']

/-- `Period(s)`: value lookup; `none` models the `ValueError` on an unknown
code. -/
def Period.ofCode (s : List Char) : Option Period :=
  if s = ['w'] then some .WEEK
  else if s = ['1'] then some .MONTH_1
  else if s = ['3'] then some .MONTH_3
  else if s = ['6'] then some .MONTH_6
  else if s = ['y'] then some .YEAR
  else if s = ['o'] then some .OVERALL
  else none

/-! ## The callback codec (`Callback` in `callbacks.py`) -/

/-- `@dataclass(frozen=True) class Callback`: typed representation of
callback data. -/
structure Callback where
  action : Action
  owner_id : Int
  entity : Option Entity := none
  period : Option Period := none
deriving DecidableEq

/-- The five fields serialized by `Callback.encode`, in order:
version, action, owner id, entity-or-empty, period-or-empty. -/
def encodeParts (cb : Callback) : List (List Char) :=
  [VERSION,
   cb.action.code,
   intStr cb.owner_id,
   (match cb.entity with | none => [] | some e => e.code),
   (match cb.period with | none => [] | some p => p.code)]

/-- `SEP.join(parts)` in `Callback.encode`, before the length assertion. -/
def rawEncode (cb : Callback) : List Char := joinSep (encodeParts cb)

/-- `Callback.encode`: returns the joined token; `none` models the
`AssertionError` raised when the UTF-8 byte length exceeds 64. -/
def Callback.encode (cb : Callback) : Option (List Char) :=
  if utf8Len (rawEncode cb) ≤ 64 then some (rawEncode cb) else none

/-- The optional 4th/5th fields of `Callback.decode`:
`Entity(parts[i]) if len(parts) > i and parts[i] else None`.  An absent or
empty part yields `some none` (the field is unset); a present non-empty part
must parse, otherwise the whole decode fails (`none`). -/
def optField {α : Type} (ofCode : List Char → Option α) :
    Option (List Char) → Option (Option α)
  | none => some none
  | some s => if s = [] then some none else (ofCode s).map some

/-- Body of `Callback.decode` after `data.split(SEP)`:  fewer than 3 parts,
a version mismatch, an unknown action code, an unparseable owner id, or an
invalid non-empty entity/period part all collapse to `none` (the
`except (ValueError, IndexError)` handler). -/
def decodeParts (parts : List (List Char)) : Option Callback :=
  match parts with
  | v :: a :: o :: rest =>
    if v = VERSION then
      match Action.ofCode a, pyParseInt o with
      | some act, some oid =>
        match optField Entity.ofCode rest.head?,
              optField Period.ofCode rest[1]? with
        | some e, some p => some ⟨act, oid, e, p⟩
        | _, _ => none
      | _, _ => none
    else none
  | _ => none

/-- `Callback.decode`: split on the separator and process the parts. -/
def Callback.decode (data : List Char) : Option Callback :=
  decodeParts (splitSep data)

/-! ## Cross-protocol adapters (`callbacks.py` lines 110-164) -/

/-- The lookup table of `Callback.to_lastfm_entity`. -/
def entityProviderMapping : List (Entity × Lastfm.EntityType) :=
  [(.ARTIST, .ARTIST), (.ALBUM, .ALBUM), (.TRACK, .TRACK)]

/-- `mapping.get(self.entity)` of `Callback.to_lastfm_entity`. -/
def entityToProvider (e : Entity) : Option Lastfm.EntityType :=
  (entityProviderMapping.find? (fun q => decide (q.1 = e))).map (fun q => q.2)

/-- `Callback.to_lastfm_entity`: convert the callback `Entity` to
`lastfm.EntityType`; `None` when the entity field is unset. -/
def Callback.to_lastfm_entity (cb : Callback) : Option Lastfm.EntityType :=
  match cb.entity with
  | none => none
  | some e => entityToProvider e

/-- The lookup table of `Callback.to_lastfm_period`. -/
def periodProviderMapping : List (Period × Lastfm.Period) :=
  [(.WEEK, .WEEK), (.MONTH_1, .ONE_MONTH), (.MONTH_3, .THREE_MONTHS),
   (.MONTH_6, .SIX_MONTHS), (.YEAR, .YEAR), (.OVERALL, .OVERALL)]

/-- `mapping.get(self.period)` of `Callback.to_lastfm_period`. -/
def periodToProvider (p : Period) : Option Lastfm.Period :=
  (periodProviderMapping.find? (fun q => decide (q.1 = p))).map (fun q => q.2)

/-- `Callback.to_lastfm_period`. -/
def Callback.to_lastfm_period (cb : Callback) : Option Lastfm.Period :=
  match cb.period with
  | none => none
  | some p => periodToProvider p

/-- `entity_from_lastfm`: the exhaustive dict `mapping[entity_type]` over the
closed provider enumeration. -/
def entity_from_lastfm (t : Lastfm.EntityType) : Entity :=
  match t with
  | .ARTIST => .ARTIST
  | .ALBUM => .ALBUM
  | .TRACK => .TRACK

/-- `period_from_lastfm`: the exhaustive dict `mapping[period]` over the
closed provider enumeration. -/
def period_from_lastfm (p : Lastfm.Period) : Period :=
  match p with
  | .WEEK => .WEEK
  | .ONE_MONTH => .MONTH_1
  | .THREE_MONTHS => .MONTH_3
  | .SIX_MONTHS => .MONTH_6
  | .YEAR => .YEAR
  | .OVERALL => .OVERALL

end Callbacks

/-! ## The profile store (`db.py`): the `User` table keyed by `telegram_id` -/

/-- A row of the `User` table that matters here: the linked last.fm username. -/
def Store : Type := Int → Option (List Char)

/-- `db.delete_user`: `get_or_none` then `delete_instance` when a row exists. -/
def delete_user (s : Store) (telegram_user_id : Int) : Store :=
  match s telegram_user_id with
  | none => s
  | some _ => fun k => if k = telegram_user_id then none else s k

/-- `LastfmService.unlink_user` (`services.py`): delegates to `db.delete_user`. -/
def unlink_user (s : Store) (telegram_user_id : Int) : Store :=
  delete_user s telegram_user_id

/-! ## The callback router (`commands.py`) -/

open Callbacks

/-- What a routed handler immediately does with the decoded callback: which
command function it awaits and with which arguments (before any network or
store access). -/
inductive HandlerCall where
  | npLess (owner : Int)
  | npLessCover (owner : Int)
  | npMore (owner : Int)
  | prefUnlink (owner : Int)
  | tops (owner : Int) (entity : Option Lastfm.EntityType) (period : Option Lastfm.Period)
deriving DecidableEq

/-- `_handle_np_less`: `now_playing(..., telegram_user_id=cb.owner_id)`. -/
def handleNpLess (cb : Callback) : HandlerCall := .npLess cb.owner_id

/-- `_handle_np_less_cover`. -/
def handleNpLessCover (cb : Callback) : HandlerCall := .npLessCover cb.owner_id

/-- `_handle_np_more`: `status(..., show_cover=True, telegram_user_id=cb.owner_id)`. -/
def handleNpMore (cb : Callback) : HandlerCall := .npMore cb.owner_id

/-- `_handle_pref_unlink`: `unlink_account(..., telegram_user_id=cb.owner_id)`. -/
def handlePrefUnlink (cb : Callback) : HandlerCall := .prefUnlink cb.owner_id

/-- `_handle_tops`: converts entity/period to the provider enums and calls
`tops` with the token owner. -/
def handleTops (cb : Callback) : HandlerCall :=
  .tops cb.owner_id cb.to_lastfm_entity cb.to_lastfm_period

/-- A routing table: the shape of `CALLBACK_ROUTES` (a dict from actions to
handler coroutines). -/
def RouteTable : Type := List (Action × (Callback → HandlerCall))

/-- `CALLBACK_ROUTES` as defined in `commands.py`. -/
def CALLBACK_ROUTES : RouteTable :=
  [(.NP_LESS, handleNpLess),
   (.NP_LESS_COVER, handleNpLessCover),
   (.NP_MORE, handleNpMore),
   (.PREF_UNLINK, handlePrefUnlink),
   (.TOPS, handleTops)]

/-- `routes.get(action)`: dict lookup returning `None` when absent. -/
def routesGet (routes : RouteTable) (a : Action) : Option (Callback → HandlerCall) :=
  (routes.find? (fun q => decide (q.1 = a))).map (fun q => q.2)

/-- Observable outcome of `button_handler`: the two logged early returns, or
the awaited handler call. -/
inductive DispatchOutcome where
  | decodeFailed
  | noHandler (a : Action)
  | handled (call : HandlerCall)
deriving DecidableEq

/-- `button_handler` body, parametric in the routing table it consults:
decode, bail out on failure, look up the handler, bail out when absent,
otherwise invoke the handler with the full decoded callback. -/
def dispatchWith (routes : RouteTable) (data : List Char) : DispatchOutcome :=
  match Callback.decode data with
  | none => .decodeFailed
  | some cb =>
    match routesGet routes cb.action with
    | none => .noHandler cb.action
    | some h => .handled (h cb)

/-- `button_handler` with the table wired in `commands.py`. -/
def buttonHandler (data : List Char) : DispatchOutcome :=
  dispatchWith CALLBACK_ROUTES data

/-! ## User resolution inside the handlers (`commands.py`) -/

/-- The fields of a `telegram.Update` the handlers read for identity:
`update.callback_query.from_user.id` and `update.message.from_user.id`,
each absent (`None`) when the corresponding attribute chain is absent. -/
structure UpdateModel where
  callback_query_from : Option Int
  message_from : Option Int

/-- The update delivered for an inline-button press: `callback_query` is
present (carrying who pressed), `update.message` is `None`. -/
def buttonUpdate (presser : Int) : UpdateModel := ⟨some presser, none⟩

/-- Python `x or y` on an optional integer `x`: `y` when `x` is `None` or
`0` (both falsy).  The fallback itself is `Option`: `none` models an
`AttributeError` from dereferencing an absent attribute chain. -/
def pyOrFallback (x : Option Int) (fallback : Option Int) : Option Int :=
  match x with
  | none => fallback
  | some v => if v = 0 then fallback else some v

/-- The user a handler call acts on, per the source of each handler:
`now_playing` and `status` compute `telegram_user_id or
update.message.from_user.id`; `unlink_account` computes `telegram_user_id or
query.from_user.id`; `tops` from a button uses `telegram_user_id` directly.
A `none` result models the `AttributeError` raised when the fallback
dereferences an absent `update.message`. -/
def handlerActedUser (u : UpdateModel) : HandlerCall → Option Int
  | .npLess owner => pyOrFallback (some owner) u.message_from
  | .npLessCover owner => pyOrFallback (some owner) u.message_from
  | .npMore owner => pyOrFallback (some owner) u.message_from
  | .prefUnlink owner => pyOrFallback (some owner) u.callback_query_from
  | .tops owner _ _ => some owner

/-- Effect of a handler call on the profile store: only the unlink handler
writes (via `build_preferences_unlink_account_response` →
`LastfmService.unlink_user` → `db.delete_user`); the others only render. -/
def applyCall (s : Store) (u : UpdateModel) (hc : HandlerCall) : Store :=
  match hc with
  | .prefUnlink _ =>
    match handlerActedUser u hc with
    | some uid => unlink_user s uid
    | none => s
  | _ => s

/-- Store effect of one inbound button press routed through the given table. -/
def dispatchStoreWith (routes : RouteTable) (s : Store) (presser : Int)
    (data : List Char) : Store :=
  match dispatchWith routes data with
  | .handled hc => applyCall s (buttonUpdate presser) hc
  | _ => s

/-- Store effect of one inbound button press through `CALLBACK_ROUTES`. -/
def dispatchStore (s : Store) (presser : Int) (data : List Char) : Store :=
  dispatchStoreWith CALLBACK_ROUTES s presser data

/-! ## The chart flow (`ViewService.build_tops_response` in `services.py`) -/

/-- The three shapes of response the tops flow renders: the choose-entity
keyboard, the choose-period keyboard (rows of buttons, each encoding a
callback), or the final chart (no keyboard — both the no-data branch and the
chart branch return `reply_markup = None`). -/
inductive TopsView where
  | chooseEntity (rows : List (List Callback))
  | choosePeriod (rows : List (List Callback))
  | chart
deriving DecidableEq

/-- Iteration order of the `period_display` dict in
`build_tops_response`. -/
def periodDisplayKeys : List Callbacks.Period :=
  [.WEEK, .MONTH_1, .MONTH_3, .MONTH_6, .YEAR, .OVERALL]

/-- The row-building loop of the choose-period keyboard: rows are closed at
three buttons, a final shorter row is kept. -/
def packRows : List Callback → List (List Callback)
  | a :: b :: c :: rest => [a, b, c] :: packRows rest
  | [] => []
  | rest => [rest]

/-- `ViewService.build_tops_response`, reduced to which keyboard (with which
encoded callbacks) it renders: no entity ⇒ choose-entity keyboard; entity but
no period ⇒ choose-period keyboard; both present ⇒ final chart text with no
keyboard (the chart text itself depends on provider data and is not needed by
any claim). -/
def build_tops_response (telegram_user_id : Int)
    (entity_type : Option Lastfm.EntityType) (period : Option Lastfm.Period) :
    TopsView :=
  match entity_type with
  | none =>
    .chooseEntity
      [[⟨.TOPS, telegram_user_id, some .ARTIST, none⟩,
        ⟨.TOPS, telegram_user_id, some .ALBUM, none⟩,
        ⟨.TOPS, telegram_user_id, some .TRACK, none⟩]]
  | some et =>
    match period with
    | none =>
      .choosePeriod
        (packRows (periodDisplayKeys.map
          (fun cp => ⟨.TOPS, telegram_user_id, some (entity_from_lastfm et), some cp⟩)))
    | some _ => .chart

/-! ## Lemmas: decimal digits and Python integer parsing -/

lemma digitChar_isDigit (n : Nat) : charIsDigit (digitChar n) = true := by
  unfold digitChar
  split_ifs <;> decide

lemma digitChar_toNat (n : Nat) (h : n < 10) : (digitChar n).toNat - 48 = n := by
  interval_cases n <;> decide

lemma charIsDigit_spec (c : Char) (h : charIsDigit c = true) :
    48 ≤ c.toNat ∧ c.toNat ≤ 57 := by
  simpa [charIsDigit] using h

lemma charIsDigit_ne (c : Char) (h : charIsDigit c = true) :
    c ≠ '_' ∧ c ≠ '+' ∧ c ≠ '-' ∧ c ≠ '|' ∧ pyIsSpace c = false := by
  refine ⟨?_, ?_, ?_, ?_, ?_⟩
  · rintro rfl; exact absurd h (by decide)
  · rintro rfl; exact absurd h (by decide)
  · rintro rfl; exact absurd h (by decide)
  · rintro rfl; exact absurd h (by decide)
  · have hsp : ¬(c = ' ' ∨ c = '\t' ∨ c = '\n' ∨ c = '\r' ∨ c = '\x0b' ∨ c = '\x0c') := by
      rintro (rfl | rfl | rfl | rfl | rfl | rfl) <;> exact absurd h (by decide)
    simp only [pyIsSpace]
    exact decide_eq_false hsp

lemma toDecAux_all_digits :
    ∀ fuel n c, c ∈ toDecAux fuel n → charIsDigit c = true := by
  intro fuel
  induction fuel with
  | zero => intro n c hc; simp [toDecAux] at hc
  | succ f ih =>
    intro n c hc
    rw [toDecAux] at hc
    split at hc
    · simp only [List.mem_singleton] at hc
      subst hc; exact digitChar_isDigit _
    · rcases List.mem_cons.mp hc with rfl | hc2
      · exact digitChar_isDigit _
      · exact ih _ c hc2

lemma toDecAux_ne_nil (fuel n : Nat) (h : 0 < fuel) : toDecAux fuel n ≠ [] := by
  cases fuel with
  | zero => omega
  | succ f => rw [toDecAux]; split <;> simp

lemma digitsVal_append_digit (l : List Char) (c : Char) :
    digitsVal (l ++ [c]) = 10 * digitsVal l + (c.toNat - 48) := by
  simp [digitsVal, List.foldl_append]

lemma toDecAux_val :
    ∀ fuel n, n < 10 ^ fuel → digitsVal (toDecAux fuel n).reverse = n := by
  intro fuel
  induction fuel with
  | zero =>
    intro n hn
    have : n = 0 := by simpa using hn
    subst this
    simp [toDecAux, digitsVal]
  | succ f ih =>
    intro n hn
    rw [toDecAux]
    split
    · rename_i h10
      simp only [List.reverse_singleton]
      have : digitsVal [digitChar n] = (digitChar n).toNat - 48 := by
        simp [digitsVal]
      rw [this, digitChar_toNat n h10]
    · rename_i h10
      push_neg at h10
      have hdiv : n / 10 < 10 ^ f := by
        rw [Nat.div_lt_iff_lt_mul (by norm_num)]
        calc n < 10 ^ (f + 1) := hn
        _ = 10 ^ f * 10 := by ring
      rw [List.reverse_cons, digitsVal_append_digit, ih _ hdiv,
        digitChar_toNat _ (Nat.mod_lt n (by norm_num))]
      omega

lemma lt_ten_pow_succ (n : Nat) : n < 10 ^ (n + 1) := by
  calc n < 2 ^ n := Nat.lt_two_pow n
  _ ≤ 10 ^ n := Nat.pow_le_pow_left (by norm_num) n
  _ ≤ 10 ^ (n + 1) := Nat.pow_le_pow_right (by norm_num) (Nat.le_succ n)

lemma toDec_val (n : Nat) : digitsVal (toDec n) = n :=
  toDecAux_val (n + 1) n (lt_ten_pow_succ n)

lemma toDec_all_digits (n : Nat) : ∀ c ∈ toDec n, charIsDigit c = true :=
  fun c hc => toDecAux_all_digits _ _ c (List.mem_reverse.mp hc)

lemma toDec_ne_nil (n : Nat) : toDec n ≠ [] := by
  intro h
  exact toDecAux_ne_nil (n + 1) n (Nat.succ_pos n) (List.reverse_eq_nil_iff.mp h)

lemma digitsTail_of_digits :
    ∀ l : List Char, (∀ c ∈ l, charIsDigit c = true) → digitsTail l = true := by
  intro l
  induction l with
  | nil => intro _; rfl
  | cons c rest ih =>
    intro h
    have hc := h c (List.mem_cons_self c rest)
    have hne := (charIsDigit_ne c hc).1
    cases rest with
    | nil =>
      have step : digitsTail [c] =
          if c = '_' then false else charIsDigit c && digitsTail [] := rfl
      rw [step, if_neg hne, hc]
      rfl
    | cons d rest2 =>
      have step : digitsTail (c :: d :: rest2) =
          if c = '_' then charIsDigit d && digitsTail rest2
          else charIsDigit c && digitsTail (d :: rest2) := rfl
      rw [step, if_neg hne]
      simp [hc, ih (fun x hx => h x (List.mem_cons_of_mem c hx))]

lemma pyDigitsOk_of_digits (l : List Char) (hne : l ≠ [])
    (h : ∀ c ∈ l, charIsDigit c = true) : pyDigitsOk l = true := by
  cases l with
  | nil => exact absurd rfl hne
  | cons c rest =>
    rw [pyDigitsOk]
    simp [h c (List.mem_cons_self c rest),
      digitsTail_of_digits rest (fun d hd => h d (List.mem_cons_of_mem c hd))]

lemma pyParseDigits_digits (l : List Char) (hne : l ≠ [])
    (h : ∀ c ∈ l, charIsDigit c = true) :
    pyParseDigits l = some (digitsVal l) := by
  rw [pyParseDigits, if_pos (pyDigitsOk_of_digits l hne h), List.filter_eq_self.mpr h]

lemma dropWhile_eq_self_of_none (p : Char → Bool) (l : List Char)
    (h : ∀ c ∈ l, p c = false) : l.dropWhile p = l := by
  cases l with
  | nil => rfl
  | cons c rest => simp [List.dropWhile_cons, h c (List.mem_cons_self c rest)]

lemma stripSpaces_eq_self (l : List Char) (h : ∀ c ∈ l, pyIsSpace c = false) :
    stripSpaces l = l := by
  unfold stripSpaces
  rw [dropWhile_eq_self_of_none _ _ h,
    dropWhile_eq_self_of_none _ _ (fun c hc => h c (List.mem_reverse.mp hc)),
    List.reverse_reverse]

lemma pyParseSigned_toDec (m : Nat) : pyParseSigned (toDec m) = some (m : Int) := by
  obtain ⟨c, rest, hcr⟩ := List.exists_cons_of_ne_nil (toDec_ne_nil m)
  have hc : charIsDigit c = true := toDec_all_digits m c (by rw [hcr]; exact List.mem_cons_self c rest)
  have hparse : pyParseDigits (toDec m) = some (digitsVal (toDec m)) :=
    pyParseDigits_digits _ (toDec_ne_nil m) (toDec_all_digits m)
  rw [hcr, pyParseSigned, if_neg (charIsDigit_ne c hc).2.1,
    if_neg (charIsDigit_ne c hc).2.2.1, ← hcr, hparse, toDec_val]
  rfl

lemma intStr_no_space_no_sep (n : Int) :
    ∀ c ∈ intStr n, pyIsSpace c = false ∧ c ≠ '|' := by
  intro c hc
  unfold intStr at hc
  split at hc
  · rcases List.mem_cons.mp hc with rfl | hc2
    · exact ⟨by decide, by decide⟩
    · have hd := toDec_all_digits _ c hc2
      exact ⟨(charIsDigit_ne c hd).2.2.2.2, (charIsDigit_ne c hd).2.2.2.1⟩
  · have hd := toDec_all_digits _ c hc
    exact ⟨(charIsDigit_ne c hd).2.2.2.2, (charIsDigit_ne c hd).2.2.2.1⟩

lemma pyParseInt_intStr (n : Int) : pyParseInt (intStr n) = some n := by
  rw [pyParseInt,
    stripSpaces_eq_self _ (fun c hc => (intStr_no_space_no_sep n c hc).1)]
  unfold intStr
  split
  · rename_i hneg
    rw [pyParseSigned, if_neg (by decide : ¬('-' : Char) = '+'), if_pos rfl,
      pyParseDigits_digits _ (toDec_ne_nil _) (toDec_all_digits _), toDec_val,
      Option.map_some']
    congr 1
    omega
  · rename_i hneg
    rw [pyParseSigned_toDec]
    congr 1
    omega

/-! ## Lemmas: the separator split/join round trip -/

lemma modifyHead_modifyHead (f g : List Char → List Char)
    (l : List (List Char)) :
    List.modifyHead f (List.modifyHead g l) = List.modifyHead (fun x => f (g x)) l := by
  cases l <;> simp [List.modifyHead]

lemma splitSep_append (p rest : List Char) (hp : '|' ∉ p) :
    splitSep (p ++ rest) = List.modifyHead (fun q => p ++ q) (splitSep rest) := by
  induction p with
  | nil =>
    simp only [List.nil_append]
    cases hs : splitSep rest with
    | nil => simp [List.modifyHead]
    | cons q qs => simp [List.modifyHead]
  | cons c p2 ih =>
    have hc : ¬c = '|' := fun hc => hp (by rw [hc]; exact List.mem_cons_self _ _)
    have hp2 : '|' ∉ p2 := fun hm => hp (List.mem_cons_of_mem c hm)
    rw [List.cons_append, splitSep, if_neg hc, ih hp2, modifyHead_modifyHead]
    congr 1

lemma splitSep_joinSep :
    ∀ parts : List (List Char), parts ≠ [] → (∀ p ∈ parts, '|' ∉ p) →
      splitSep (joinSep parts) = parts := by
  intro parts
  induction parts with
  | nil => intro h; exact absurd rfl h
  | cons p ps ih =>
    intro _ hp
    cases ps with
    | nil =>
      have hjoin : joinSep [p] = p ++ [] := by simp [joinSep]
      rw [hjoin, splitSep_append p [] (hp p (List.mem_cons_self p []))]
      simp [splitSep, List.modifyHead]
    | cons q qs =>
      have hjoin : joinSep (p :: q :: qs) = p ++ '|' :: joinSep (q :: qs) := rfl
      have hbar : splitSep ('|' :: joinSep (q :: qs)) =
          [] :: splitSep (joinSep (q :: qs)) := by
        rw [splitSep, if_pos rfl]
      rw [hjoin, splitSep_append p _ (hp p (List.mem_cons_self p _)), hbar,
        ih (by simp) (fun r hr => hp r (List.mem_cons_of_mem p hr))]
      simp [List.modifyHead]

/-! ## Lemmas: the codec round trip -/

lemma action_ofCode_code (a : Action) : Action.ofCode a.code = some a := by
  cases a <;> decide

lemma encodeParts_no_sep (cb : Callback) : ∀ p ∈ encodeParts cb, '|' ∉ p := by
  intro p hp
  simp only [encodeParts, List.mem_cons, List.not_mem_nil, or_false] at hp
  rcases hp with rfl | rfl | rfl | rfl | rfl
  · decide
  · cases cb.action <;> decide
  · intro h; exact (intStr_no_space_no_sep _ '|' h).2 rfl
  · cases cb.entity with
    | none => simp
    | some e => cases e <;> decide
  · cases cb.period with
    | none => simp
    | some p => cases p <;> decide

lemma optField_entity (e : Option Entity) :
    optField Entity.ofCode
      (some (match e with | none => [] | some x => x.code)) = some e := by
  cases e with
  | none => rfl
  | some x => cases x <;> decide

lemma optField_period (p : Option Period) :
    optField Period.ofCode
      (some (match p with | none => [] | some x => x.code)) = some p := by
  cases p with
  | none => rfl
  | some x => cases x <;> decide

lemma decode_rawEncode (cb : Callback) : Callback.decode (rawEncode cb) = some cb := by
  rw [Callback.decode, rawEncode,
    splitSep_joinSep _ (by simp [encodeParts]) (encodeParts_no_sep cb)]
  rw [encodeParts]
  simp only [decodeParts, if_pos rfl, action_ofCode_code cb.action,
    pyParseInt_intStr cb.owner_id, List.head?, List.getElem?_cons_succ,
    List.getElem?_cons_zero, optField_entity cb.entity,
    optField_period cb.period]
  rfl

/-! ## Lemmas: token byte length -/

lemma utf8Len_append (a b : List Char) :
    utf8Len (a ++ b) = utf8Len a + utf8Len b := by
  simp [utf8Len]

lemma utf8Len_cons (c : Char) (l : List Char) :
    utf8Len (c :: l) = charUtf8Size c + utf8Len l := by
  simp [utf8Len]

lemma charUtf8Size_digit (c : Char) (h : charIsDigit c = true) :
    charUtf8Size c = 1 := by
  have hs := charIsDigit_spec c h
  rw [charUtf8Size, if_pos (by omega)]

lemma utf8Len_of_digits :
    ∀ l : List Char, (∀ c ∈ l, charIsDigit c = true) → utf8Len l = l.length := by
  intro l
  induction l with
  | nil => intro _; rfl
  | cons c rest ih =>
    intro h
    rw [utf8Len_cons, charUtf8Size_digit c (h c (List.mem_cons_self c rest)),
      ih (fun d hd => h d (List.mem_cons_of_mem c hd)), List.length_cons]
    omega

lemma toDecAux_length :
    ∀ fuel n, n < 10 ^ fuel → (toDecAux fuel n).length ≤ fuel := by
  intro fuel
  induction fuel with
  | zero => intro n hn; interval_cases n; simp [toDecAux]
  | succ f ih =>
    intro n hn
    rw [toDecAux]
    split
    · simp
    · rename_i h10
      push_neg at h10
      have hdiv : n / 10 < 10 ^ f := by
        rw [Nat.div_lt_iff_lt_mul (by norm_num)]
        calc n < 10 ^ (f + 1) := hn
        _ = 10 ^ f * 10 := by ring
      simpa using Nat.succ_le_succ (ih _ hdiv)

lemma toDecAux_congr :
    ∀ fuel fuel2 n, 0 < fuel → 0 < fuel2 → n < 10 ^ fuel → n < 10 ^ fuel2 →
      toDecAux fuel n = toDecAux fuel2 n := by
  intro fuel
  induction fuel with
  | zero => intro fuel2 n h; omega
  | succ f ih =>
    intro fuel2 n _ hf2 hn hn2
    cases fuel2 with
    | zero => omega
    | succ f2 =>
      rw [toDecAux, toDecAux]
      split
      · rfl
      · rename_i h10
        push_neg at h10
        have hdf : n / 10 < 10 ^ f := by
          rw [Nat.div_lt_iff_lt_mul (by norm_num)]
          calc n < 10 ^ (f + 1) := hn
          _ = 10 ^ f * 10 := by ring
        have hdf2 : n / 10 < 10 ^ f2 := by
          rw [Nat.div_lt_iff_lt_mul (by norm_num)]
          calc n < 10 ^ (f2 + 1) := hn2
          _ = 10 ^ f2 * 10 := by ring
        have hfpos : 0 < f := by
          rcases Nat.eq_zero_or_pos f with rfl | hf
          · norm_num at hn; omega
          · exact hf
        have hf2pos : 0 < f2 := by
          rcases Nat.eq_zero_or_pos f2 with rfl | hf
          · norm_num at hn2; omega
          · exact hf
        rw [ih f2 (n / 10) hfpos hf2pos hdf hdf2]

lemma toDec_length_le (k n : Nat) (hk : 0 < k) (hn : n < 10 ^ k) :
    (toDec n).length ≤ k := by
  rw [toDec, List.length_reverse,
    toDecAux_congr (n + 1) k n (Nat.succ_pos n) hk (lt_ten_pow_succ n) hn]
  exact toDecAux_length k n hn

lemma utf8Len_intStr_le (n : Int) (h0 : 0 ≤ n) (h1 : n < 2 ^ 63) :
    utf8Len (intStr n) ≤ 19 := by
  rw [intStr, if_neg (by omega)]
  rw [utf8Len_of_digits _ (toDec_all_digits _)]
  apply toDec_length_le 19 _ (by norm_num)
  have h2 : (2 : Int) ^ 63 = 9223372036854775808 := by norm_num
  rw [h2] at h1
  have h3 : n.toNat < 9223372036854775808 := by omega
  calc n.toNat < 9223372036854775808 := h3
  _ < 10 ^ 19 := by norm_num

lemma joinSep_cons2 (p q : List Char) (ps : List (List Char)) :
    joinSep (p :: q :: ps) = p ++ '|' :: joinSep (q :: ps) := rfl

lemma joinSep_single (p : List Char) : joinSep [p] = p := rfl

lemma utf8Len_rawEncode_le (cb : Callback) (h0 : 0 ≤ cb.owner_id)
    (h1 : cb.owner_id < 2 ^ 63) : utf8Len (rawEncode cb) ≤ 64 := by
  rw [rawEncode, encodeParts, joinSep_cons2, joinSep_cons2, joinSep_cons2,
    joinSep_cons2, joinSep_single]
  simp only [utf8Len_append, utf8Len_cons]
  have hV : utf8Len VERSION = 1 := by decide
  have hbar : charUtf8Size '|' = 1 := by decide
  have hA : utf8Len cb.action.code ≤ 2 := by cases cb.action <;> decide
  have hO := utf8Len_intStr_le cb.owner_id h0 h1
  have hE : utf8Len (match cb.entity with | none => [] | some e => e.code) ≤ 1 := by
    cases cb.entity with
    | none => decide
    | some e => cases e <;> decide
  have hP : utf8Len (match cb.period with | none => [] | some p => p.code) ≤ 1 := by
    cases cb.period with
    | none => decide
    | some p => cases p <;> decide
  omega

/-! ## Claim C1 -/

/-- Claim C1: round-trip law of the callback codec.  For every legal
`Callback` (any action, non-negative owner id, optional entity and period)
whose `encode` produces a token, `decode` maps the token back to the same
value; and every token produced by `encode` is reproduced by encoding its
decoding. -/
theorem claim_c1_roundtrip :
    ∀ (cb : Callback) (t : List Char), 0 ≤ cb.owner_id →
      Callback.encode cb = some t →
      Callback.decode t = some cb ∧
      ∃ cb2, Callback.decode t = some cb2 ∧ Callback.encode cb2 = some t := by
  intro cb t h0 henc
  have ht : t = rawEncode cb := by
    rw [Callback.encode] at henc
    split at henc
    · exact (Option.some_inj.mp henc).symm
    · exact absurd henc (by simp)
  subst ht
  exact ⟨decode_rawEncode cb, cb, decode_rawEncode cb, henc⟩

/-- Witness for C1 at the concrete request (NP_LESS, owner 42, no entity,
no period), whose token is `"1|nl|42||"`. -/
theorem claim_c1_roundtrip_witness :
    Callback.decode (("1|nl|42||").data) = some ⟨.NP_LESS, 42, none, none⟩ ∧
    ∃ cb2, Callback.decode (("1|nl|42||").data) = some cb2 ∧
      Callback.encode cb2 = some (("1|nl|42||").data) :=
  claim_c1_roundtrip ⟨.NP_LESS, 42, none, none⟩ (("1|nl|42||").data)
    (by decide) (by decide)

/-! ## Claim C2 -/

/-- Claim C2: size bound.  `encode` fails (the length assertion) whenever the
joined token would exceed 64 UTF-8 bytes; and for every legal request —
bounded non-negative platform owner id (Telegram ids are signed 64-bit) with
any action/entity/period — the token is at most 64 bytes, so `encode`
succeeds and the failure branch is unreachable over the legal domain. -/
theorem claim_c2_size_bound :
    (∀ cb : Callback, 64 < utf8Len (rawEncode cb) → Callback.encode cb = none) ∧
    (∀ cb : Callback, 0 ≤ cb.owner_id → cb.owner_id < 2 ^ 63 →
      utf8Len (rawEncode cb) ≤ 64 ∧ Callback.encode cb = some (rawEncode cb)) := by
  constructor
  · intro cb h
    rw [Callback.encode, if_neg (by omega)]
  · intro cb h0 h1
    have hle := utf8Len_rawEncode_le cb h0 h1
    exact ⟨hle, by rw [Callback.encode, if_pos hle]⟩

/-- Witness for C2: a 61-digit owner id makes `encode` fail, and the
boundary-style request (TOPS, owner 123456789, artist, week) stays within
the 64-byte ceiling. -/
theorem claim_c2_size_bound_witness :
    Callback.encode ⟨.TOPS,
      1000000000000000000000000000000000000000000000000000000000000,
      none, none⟩ = none ∧
    (utf8Len (rawEncode ⟨.TOPS, 123456789, some .ARTIST, some .WEEK⟩) ≤ 64 ∧
     Callback.encode ⟨.TOPS, 123456789, some .ARTIST, some .WEEK⟩ =
       some (rawEncode ⟨.TOPS, 123456789, some .ARTIST, some .WEEK⟩)) :=
  ⟨claim_c2_size_bound.1 _ (by decide),
   claim_c2_size_bound.2 _ (by decide) (by decide)⟩

/-! ## Lemmas: total decode and its failure conditions -/

lemma decodeParts_none_iff (v a o : List Char) (rest : List (List Char)) :
    decodeParts (v :: a :: o :: rest) = none ↔
      (v ≠ VERSION ∨ Action.ofCode a = none ∨ pyParseInt o = none ∨
       optField Entity.ofCode rest.head? = none ∨
       optField Period.ofCode rest[1]? = none) := by
  by_cases hv : v = VERSION
  · subst hv
    rcases ha : Action.ofCode a with _ | act
    · simp [decodeParts, ha]
    · rcases ho : pyParseInt o with _ | oid
      · simp [decodeParts, ha, ho]
      · rcases he : optField Entity.ofCode rest.head? with _ | e
        · simp [decodeParts, ha, ho, he]
        · rcases hp : optField Period.ofCode rest[1]? with _ | p
          · simp [decodeParts, ha, ho, he, hp]
          · simp [decodeParts, ha, ho, he, hp]
  · simp [decodeParts, hv]

lemma decode_none_iff (data : List Char) :
    Callback.decode data = none ↔
      ((splitSep data).length < 3 ∨
       ∃ v a o rest, splitSep data = v :: a :: o :: rest ∧
         (v ≠ VERSION ∨ Action.ofCode a = none ∨ pyParseInt o = none ∨
          optField Entity.ofCode rest.head? = none ∨
          optField Period.ofCode rest[1]? = none)) := by
  rw [Callback.decode]
  rcases hps : splitSep data with _ | ⟨v, _ | ⟨a, _ | ⟨o, rest⟩⟩⟩
  · simp [decodeParts]
  · simp [decodeParts]
  · simp [decodeParts]
  · rw [decodeParts_none_iff]
    constructor
    · intro h
      exact Or.inr ⟨v, a, o, rest, rfl, h⟩
    · rintro (hlen | ⟨v2, a2, o2, rest2, heq, hd⟩)
      · simp at hlen; omega
      · injection heq with h1 hrest
        injection hrest with h2 hrest2
        injection hrest2 with h3 h4
        subst h1; subst h2; subst h3; subst h4
        exact hd

/-! ## Claim C3 -/

/-- Claim C3: decode totality and failure conditions.  `decode` is a total
function into `Option` (every input yields a request or the single failure
signal `none`), and it fails exactly when the input has fewer than 3
separator-delimited parts, or the version part differs from `VERSION`, or
the action part is not in the `Action` vocabulary, or the owner-id part is
not parseable as an integer, or a present non-empty 4th/5th part is not a
valid `Entity`/`Period` code.  The empty string and `"1|t|42|z|w"` are
failing instances. -/
theorem claim_c3_decode_total_failures :
    (∀ data : List Char,
      Callback.decode data = none ↔
        ((splitSep data).length < 3 ∨
         ∃ v a o rest, splitSep data = v :: a :: o :: rest ∧
           (v ≠ VERSION ∨ Action.ofCode a = none ∨ pyParseInt o = none ∨
            optField Entity.ofCode rest.head? = none ∨
            optField Period.ofCode rest[1]? = none))) ∧
    Callback.decode [] = none ∧
    Callback.decode (("1|t|42|z|w").data) = none :=
  ⟨decode_none_iff, by decide, by decide⟩

/-! ## Claim C4 -/

/-- Claim C4: optional-field and forward-compatibility semantics of decode.
With a valid version/action/owner prefix, an absent or empty 4th (entity)
or 5th (period) part leaves the corresponding field unset (`none`) rather
than failing or defaulting; parts beyond the 5th are ignored; and
`"1|nl|42|||extra"` decodes to the request with both optional fields
unset. -/
theorem claim_c4_optional_fields :
    (∀ (a o : List Char) (act : Action) (oid : Int),
      Action.ofCode a = some act → pyParseInt o = some oid →
      decodeParts [VERSION, a, o] = some ⟨act, oid, none, none⟩ ∧
      decodeParts [VERSION, a, o, []] = some ⟨act, oid, none, none⟩ ∧
      decodeParts [VERSION, a, o, [], []] = some ⟨act, oid, none, none⟩ ∧
      (∀ (e : List Char) (ent : Entity), Entity.ofCode e = some ent →
        decodeParts [VERSION, a, o, e] = some ⟨act, oid, some ent, none⟩ ∧
        decodeParts [VERSION, a, o, e, []] = some ⟨act, oid, some ent, none⟩)) ∧
    (∀ (v a o e p : List Char) (extra : List (List Char)),
      decodeParts (v :: a :: o :: e :: p :: extra) = decodeParts [v, a, o, e, p]) ∧
    Callback.decode (("1|nl|42|||extra").data) = some ⟨.NP_LESS, 42, none, none⟩ := by
  refine ⟨?_, ?_, by decide⟩
  · intro a o act oid ha ho
    have hene : ∀ (e : List Char) (ent : Entity), Entity.ofCode e = some ent → e ≠ [] := by
      intro e ent he h
      subst h
      rw [show Entity.ofCode [] = none by decide] at he
      exact Option.noConfusion he
    refine ⟨?_, ?_, ?_, ?_⟩
    · simp [decodeParts, ha, ho, optField]
    · simp [decodeParts, ha, ho, optField]
    · simp [decodeParts, ha, ho, optField]
    · intro e ent he
      constructor
      · simp [decodeParts, ha, ho, optField, hene e ent he, he]
      · simp [decodeParts, ha, ho, optField, hene e ent he, he]
  · intro v a o e p extra
    simp only [decodeParts, List.head?_cons, List.getElem?_cons_succ,
      List.getElem?_cons_zero]

/-- Witness for C4 at action code `"nl"`, owner part `"42"`, entity code
`"a"`. -/
theorem claim_c4_optional_fields_witness :
    decodeParts [VERSION, ['n', 'l'], ['4', '2']] =
      some ⟨.NP_LESS, 42, none, none⟩ ∧
    decodeParts [VERSION, ['n', 'l'], ['4', '2'], ['a']] =
      some ⟨.NP_LESS, 42, some .ARTIST, none⟩ :=
  ⟨(claim_c4_optional_fields.1 ['n', 'l'] ['4', '2'] .NP_LESS 42
      (by decide) (by decide)).1,
   ((claim_c4_optional_fields.1 ['n', 'l'] ['4', '2'] .NP_LESS 42
      (by decide) (by decide)).2.2.2 ['a'] .ARTIST (by decide)).1⟩

/-! ## Lemmas: profile store deletion -/

lemma delete_user_absent (s : Store) (uid : Int) (h : s uid = none) :
    delete_user s uid = s := by
  simp [delete_user, h]

lemma delete_user_deleted (s : Store) (uid : Int) :
    (delete_user s uid) uid = none := by
  cases hs : s uid <;> simp [delete_user, hs]

lemma delete_user_other (s : Store) (uid k : Int) (h : k ≠ uid) :
    (delete_user s uid) k = s k := by
  cases hs : s uid <;> simp [delete_user, hs, h]

/-! ## Claim C9 -/

/-- Claim C9: unlink idempotence.  Unlinking an owner with no linked profile
is a no-op on the store (and a total function, so it completes without
error), and unlinking twice equals unlinking once. -/
theorem claim_c9_unlink_idempotent :
    ∀ (s : Store) (uid : Int),
      (s uid = none → unlink_user s uid = s) ∧
      unlink_user (unlink_user s uid) uid = unlink_user s uid := by
  intro s uid
  constructor
  · intro h
    rw [unlink_user, delete_user_absent s uid h]
  · simp only [unlink_user]
    rw [delete_user_absent (delete_user s uid) uid (delete_user_deleted s uid)]

/-- Witness for C9 on the empty store at owner 5. -/
theorem claim_c9_unlink_idempotent_witness :
    unlink_user (fun _ => none) 5 = (fun _ => none : Store) ∧
    unlink_user (unlink_user (fun _ => none) 5) 5 =
      unlink_user (fun _ => none) 5 :=
  ⟨(claim_c9_unlink_idempotent (fun _ => none) 5).1 rfl,
   (claim_c9_unlink_idempotent (fun _ => none) 5).2⟩

/-! ## Claim C6 -/

/-- Claim C6: router error behaviour.  For any routing table: a decode
failure makes the router return the logged decode-failure outcome with no
handler invoked and no store effect; a decoded action with no registered
handler makes it return the logged no-handler outcome with no store effect;
and only on a successful decode with a registered handler is the handler
invoked, receiving the full decoded request. -/
theorem claim_c6_router :
    ∀ (routes : RouteTable) (s : Store) (presser : Int) (data : List Char),
      (Callback.decode data = none →
        dispatchWith routes data = .decodeFailed ∧
        dispatchStoreWith routes s presser data = s) ∧
      (∀ cb, Callback.decode data = some cb →
        routesGet routes cb.action = none →
        dispatchWith routes data = .noHandler cb.action ∧
        dispatchStoreWith routes s presser data = s) ∧
      (∀ cb h, Callback.decode data = some cb →
        routesGet routes cb.action = some h →
        dispatchWith routes data = .handled (h cb)) := by
  intro routes s presser data
  refine ⟨?_, ?_, ?_⟩
  · intro hd
    have h1 : dispatchWith routes data = .decodeFailed := by
      simp [dispatchWith, hd]
    exact ⟨h1, by simp [dispatchStoreWith, h1]⟩
  · intro cb hd hr
    have h1 : dispatchWith routes data = .noHandler cb.action := by
      simp [dispatchWith, hd, hr]
    exact ⟨h1, by simp [dispatchStoreWith, h1]⟩
  · intro cb h hd hr
    simp [dispatchWith, hd, hr]

/-- Witness for C6: an empty table leaves a decoded TOPS token unhandled
with the store untouched; garbage data yields the decode-failure outcome;
the shipped table routes a PREF_UNLINK token to its handler. -/
theorem claim_c6_router_witness :
    (dispatchWith [] (("1|t|5||").data) = .noHandler .TOPS ∧
     dispatchStoreWith [] (fun _ => none) 7 (("1|t|5||").data) =
       (fun _ => none : Store)) ∧
    (dispatchWith CALLBACK_ROUTES (("junk").data) = .decodeFailed ∧
     dispatchStoreWith CALLBACK_ROUTES (fun _ => none) 7 (("junk").data) =
       (fun _ => none : Store)) ∧
    dispatchWith CALLBACK_ROUTES (("1|pu|3||").data) =
      .handled (handlePrefUnlink ⟨.PREF_UNLINK, 3, none, none⟩) :=
  ⟨(claim_c6_router [] (fun _ => none) 7 (("1|t|5||").data)).2.1
      ⟨.TOPS, 5, none, none⟩ (by decide) rfl,
   (claim_c6_router CALLBACK_ROUTES (fun _ => none) 7 (("junk").data)).1
      (by decide),
   (claim_c6_router CALLBACK_ROUTES (fun _ => none) 7 (("1|pu|3||").data)).2.2
      ⟨.PREF_UNLINK, 3, none, none⟩ handlePrefUnlink (by decide) rfl⟩

/-! ## Claim C5 -/

/-- Claim C5: owner independence of dispatch.  The tokens `"1|pu|111||"` and
`"1|pu|222||"` decode to unlink requests for owners 111 and 222; dispatching
the owner-111 token invokes the unlink handler with owner 111, and whoever
pressed the button, the store ends with owner 111 unlinked and the presser's
own profile untouched. -/
theorem claim_c5_owner_independence :
    Callback.decode (("1|pu|111||").data) = some ⟨.PREF_UNLINK, 111, none, none⟩ ∧
    Callback.decode (("1|pu|222||").data) = some ⟨.PREF_UNLINK, 222, none, none⟩ ∧
    buttonHandler (("1|pu|111||").data) = .handled (.prefUnlink 111) ∧
    buttonHandler (("1|pu|222||").data) = .handled (.prefUnlink 222) ∧
    (∀ (s : Store) (presserB : Int),
      dispatchStore s presserB (("1|pu|111||").data) 111 = none ∧
      (presserB ≠ 111 →
        dispatchStore s presserB (("1|pu|111||").data) presserB = s presserB)) := by
  refine ⟨by decide, by decide, by decide, by decide, ?_⟩
  intro s presserB
  have h1 : dispatchWith CALLBACK_ROUTES (("1|pu|111||").data) =
      .handled (.prefUnlink 111) := by decide
  have h2 : dispatchStore s presserB (("1|pu|111||").data) =
      unlink_user s 111 := by
    rw [dispatchStore, dispatchStoreWith, h1]
    simp [applyCall, handlerActedUser, pyOrFallback, buttonUpdate]
  constructor
  · rw [h2, unlink_user]
    exact delete_user_deleted s 111
  · intro hB
    rw [h2, unlink_user]
    exact delete_user_other s 111 presserB hB

/-- Witness for C5: presser 222 unlinking owner 111 on a store where both
are linked. -/
theorem claim_c5_owner_independence_witness :
    dispatchStore (fun _ => some ['x']) 222 (("1|pu|111||").data) 111 = none ∧
    dispatchStore (fun _ => some ['x']) 222 (("1|pu|111||").data) 222 =
      (fun _ => some ['x'] : Store) 222 :=
  ⟨(claim_c5_owner_independence.2.2.2.2 (fun _ => some ['x']) 222).1,
   (claim_c5_owner_independence.2.2.2.2 (fun _ => some ['x']) 222).2 (by decide)⟩

/-! ## Claim C7 -/

/-- Claim C7: chart-flow state machine.  A TOPS token with both optional
fields empty dispatches to the choose-entity step with one button per
entity kind; with entity set and period absent, to the choose-period step
with one button per `Period` member (same owner and entity, one period
each); fully specified, to the final chart with no further buttons. -/
theorem claim_c7_chart_flow :
    Callback.decode (("1|t|42||").data) = some ⟨.TOPS, 42, none, none⟩ ∧
    buttonHandler (("1|t|42||").data) = .handled (.tops 42 none none) ∧
    build_tops_response 42 none none =
      .chooseEntity [[⟨.TOPS, 42, some .ARTIST, none⟩,
                      ⟨.TOPS, 42, some .ALBUM, none⟩,
                      ⟨.TOPS, 42, some .TRACK, none⟩]] ∧
    Callback.decode (("1|t|42|a|").data) = some ⟨.TOPS, 42, some .ARTIST, none⟩ ∧
    buttonHandler (("1|t|42|a|").data) =
      .handled (.tops 42 (some .ARTIST) none) ∧
    build_tops_response 42 (some .ARTIST) none =
      .choosePeriod [[⟨.TOPS, 42, some .ARTIST, some .WEEK⟩,
                      ⟨.TOPS, 42, some .ARTIST, some .MONTH_1⟩,
                      ⟨.TOPS, 42, some .ARTIST, some .MONTH_3⟩],
                     [⟨.TOPS, 42, some .ARTIST, some .MONTH_6⟩,
                      ⟨.TOPS, 42, some .ARTIST, some .YEAR⟩,
                      ⟨.TOPS, 42, some .ARTIST, some .OVERALL⟩]] ∧
    (∀ p : Callbacks.Period, p ∈ periodDisplayKeys) ∧
    Callback.decode (("1|t|42|a|w").data) =
      some ⟨.TOPS, 42, some .ARTIST, some .WEEK⟩ ∧
    buttonHandler (("1|t|42|a|w").data) =
      .handled (.tops 42 (some .ARTIST) (some .WEEK)) ∧
    build_tops_response 42 (some .ARTIST) (some .WEEK) = .chart := by
  refine ⟨by decide, by decide, by decide, by decide, by decide, by decide,
    by decide, by decide, by decide, by decide⟩

/-! ## Claim C8 -/

/-- Claim C8: cross-protocol adapter totality and inverse laws.  The
wire→provider maps (`to_lastfm_entity`/`to_lastfm_period` lookup tables) and
the provider→wire maps (`entity_from_lastfm`/`period_from_lastfm`) are total
over their closed enumerations and mutually inverse in both directions, for
entities and for periods; and the `Callback` methods agree with the lookup
tables on a set field. -/
theorem claim_c8_adapter_inverses :
    (∀ e : Entity, ∃ t : Lastfm.EntityType,
      entityToProvider e = some t ∧ entity_from_lastfm t = e) ∧
    (∀ t : Lastfm.EntityType, entityToProvider (entity_from_lastfm t) = some t) ∧
    (∀ p : Callbacks.Period, ∃ q : Lastfm.Period,
      periodToProvider p = some q ∧ period_from_lastfm q = p) ∧
    (∀ q : Lastfm.Period, periodToProvider (period_from_lastfm q) = some q) ∧
    (∀ e : Entity,
      (Callback.mk .TOPS 0 (some e) none).to_lastfm_entity = entityToProvider e) ∧
    (∀ p : Callbacks.Period,
      (Callback.mk .TOPS 0 none (some p)).to_lastfm_period = periodToProvider p) := by
  refine ⟨by decide, by decide, by decide, by decide, by decide, by decide⟩

/-! ## Claim C10 -/

/-- Counterexample to claim C10 as stated: the token `"1|nl|0||"` (owner id
0) does dispatch to the now-playing handler, but with `update.message`
absent on a button press the fallback of `telegram_user_id or
update.message.from_user.id` dereferences `None` — the handler resolves no
user at all (an `AttributeError`), rather than acting on presser 7 as the
claim asserts. -/
theorem claim_c10_zero_owner_counterexample :
    buttonHandler (("1|nl|0||").data) = .handled (.npLess 0) ∧
    handlerActedUser (buttonUpdate 7) (.npLess 0) = none ∧
    handlerActedUser (buttonUpdate 7) (.npLess 0) ≠ some 7 := by
  refine ⟨by decide, by decide, by decide⟩

/-- Claim C10 as amended: with a decoded owner id of 0, the truthiness-based
fallback makes the unlink handler act on whoever pressed the button, while
the now-playing and recent-tracks handlers fail to resolve any user (their
fallback reads `update.message`, which is `None` for a button press); for
every nonzero owner id every handler acts on the token's owner. -/
theorem claim_c10_zero_owner :
    (∀ presser : Int,
      handlerActedUser (buttonUpdate presser) (.prefUnlink 0) = some presser ∧
      handlerActedUser (buttonUpdate presser) (.npLess 0) = none ∧
      handlerActedUser (buttonUpdate presser) (.npLessCover 0) = none ∧
      handlerActedUser (buttonUpdate presser) (.npMore 0) = none) ∧
    (∀ (presser owner : Int), owner ≠ 0 →
      handlerActedUser (buttonUpdate presser) (.npLess owner) = some owner ∧
      handlerActedUser (buttonUpdate presser) (.npLessCover owner) = some owner ∧
      handlerActedUser (buttonUpdate presser) (.npMore owner) = some owner ∧
      handlerActedUser (buttonUpdate presser) (.prefUnlink owner) = some owner) := by
  constructor
  · intro presser
    refine ⟨?_, ?_, ?_, ?_⟩ <;>
      simp [handlerActedUser, pyOrFallback, buttonUpdate]
  · intro presser owner h
    refine ⟨?_, ?_, ?_, ?_⟩ <;>
      simp [handlerActedUser, pyOrFallback, buttonUpdate, h]

/-- Witness for the amended C10 with presser 7, owners 0 and 42. -/
theorem claim_c10_zero_owner_witness :
    handlerActedUser (buttonUpdate 7) (.prefUnlink 0) = some 7 ∧
    handlerActedUser (buttonUpdate 7) (.npMore 0) = none ∧
    handlerActedUser (buttonUpdate 7) (.npLess 42) = some 42 :=
  ⟨(claim_c10_zero_owner.1 7).1,
   (claim_c10_zero_owner.1 7).2.2.2,
   (claim_c10_zero_owner.2 7 42 (by decide)).1⟩
